/-
Verification of the aircraft-maintenance-forecast-simulator scheduling core.

Shallow embedding conventions:
* Calendar dates (pandas Timestamps, already normalized to day granularity by
  the code) are modelled as integers counting days.
* Python floats carrying labor hours are modelled as exact rationals; the
  code's 1e-9 float tolerance becomes the exact rational 1/10^9.
* pandas DataFrames become lists of records; `sort_values` on a tuple of keys
  becomes a sort by the corresponding lexicographic relation (pandas'
  default quicksort is deterministic but leaves the relative order of rows
  tied on every key unspecified; we use a stable sort, which satisfies the
  same key ordering).
* The out-of-range list access `allocations[-1]` on an empty list raises
  IndexError in Python; the embedded scheduler returns `Option` and models
  that failure as `none`.
-/
import Mathlib

namespace AircraftSim

/-- Generic three-key lexicographic "less or equal" relation: compare by `f`,
then by `g`, then by `k` (all ascending; descending keys are obtained by
mapping into `OrderDual`). -/
def lex3 {α : Type} {β γ δ : Type} [LinearOrder β] [LinearOrder γ] [LinearOrder δ]
    (f : α → β) (g : α → γ) (k : α → δ) (a b : α) : Prop :=
  f a < f b ∨ (f a = f b ∧ (g a < g b ∨ (g a = g b ∧ k a ≤ k b)))

instance lex3.decidableRel {α β γ δ : Type} [LinearOrder β] [LinearOrder γ] [LinearOrder δ]
    (f : α → β) (g : α → γ) (k : α → δ) : DecidableRel (lex3 f g k) := fun a b => by
  unfold lex3; infer_instance

instance lex3.isTotal {α β γ δ : Type} [LinearOrder β] [LinearOrder γ] [LinearOrder δ]
    (f : α → β) (g : α → γ) (k : α → δ) : IsTotal α (lex3 f g k) := by
  constructor
  intro a b
  rcases lt_trichotomy (f a) (f b) with h1 | h1 | h1
  · exact Or.inl (Or.inl h1)
  · rcases lt_trichotomy (g a) (g b) with h2 | h2 | h2
    · exact Or.inl (Or.inr ⟨h1, Or.inl h2⟩)
    · rcases le_total (k a) (k b) with h3 | h3
      · exact Or.inl (Or.inr ⟨h1, Or.inr ⟨h2, h3⟩⟩)
      · exact Or.inr (Or.inr ⟨h1.symm, Or.inr ⟨h2.symm, h3⟩⟩)
    · exact Or.inr (Or.inr ⟨h1.symm, Or.inl h2⟩)
  · exact Or.inr (Or.inl h1)

instance lex3.isTrans {α β γ δ : Type} [LinearOrder β] [LinearOrder γ] [LinearOrder δ]
    (f : α → β) (g : α → γ) (k : α → δ) : IsTrans α (lex3 f g k) := by
  constructor
  intro a b c hab hbc
  rcases hab with h1 | ⟨e1, h1⟩
  · rcases hbc with h2 | ⟨e2, h2⟩
    · exact Or.inl (h1.trans h2)
    · exact Or.inl (h1.trans_eq e2)
  · rcases hbc with h2 | ⟨e2, h2⟩
    · exact Or.inl (e1.trans_lt h2)
    · refine Or.inr ⟨e1.trans e2, ?_⟩
      rcases h1 with h1 | ⟨f1, h1⟩
      · rcases h2 with h2 | ⟨f2, h2⟩
        · exact Or.inl (h1.trans h2)
        · exact Or.inl (h1.trans_eq f2)
      · rcases h2 with h2 | ⟨f2, h2⟩
        · exact Or.inl (f1.trans_lt h2)
        · exact Or.inr ⟨f1.trans f2, h1.trans h2⟩

/-! ## Data model (src/src/simulator.py, src/src/scheduler.py, src/src/risk.py) -/

/-- One row of the fleet reference table. -/
structure Aircraft where
  aircraft_id : String
  fleet_type : String
  base : String
  deriving Repr, DecidableEq

/-- One row of the task-definition reference table. -/
structure TaskDef where
  task_id : String
  task_name : String
  fleet_type : String
  criticality : String
  labor_hours : ℚ
  interval_days : ℤ
  window_days : ℤ
  deriving Repr, DecidableEq

/-- One row of the forecast table produced by `build_forecast` and consumed by
`schedule_tasks_greedy`. -/
structure ForecastEntry where
  aircraft_id : String
  fleet_type : String
  base : String
  task_id : String
  task_name : String
  criticality : String
  labor_hours : ℚ
  interval_days : ℤ
  window_days : ℤ
  due_date : ℤ
  deriving Repr, DecidableEq

/-- One row of the capacity calendar as built by `build_capacity_calendar`
and as returned by `schedule_tasks_greedy` (no remaining-hours column). -/
structure CapSlot where
  base : String
  date : ℤ
  capacity_labor_hours : ℚ
  used_labor_hours : ℚ
  deriving Repr, DecidableEq

/-- A capacity row during allocation, carrying the derived
`remaining_labor_hours` column the scheduler adds and later drops. -/
structure CapRow where
  base : String
  date : ℤ
  capacity_labor_hours : ℚ
  used_labor_hours : ℚ
  remaining_labor_hours : ℚ
  deriving Repr, DecidableEq

instance : Inhabited CapRow :=
  ⟨{ base := "", date := 0, capacity_labor_hours := 0, used_labor_hours := 0,
     remaining_labor_hours := 0 }⟩

/-- One row of the scheduled (maintenance plan) table: the forecast row
augmented with the allocation outcome. The code carries the forecast fields
via `**task.to_dict()`; we keep them as the `entry` component. -/
structure AllocResult where
  entry : ForecastEntry
  scheduled : Bool
  scheduled_date : Option ℤ
  scheduled_base : String
  allocated_labor_hours : ℚ
  deriving Repr, DecidableEq

/-- One row of the risk register. The human-readable `notes` column is
presentation-only string formatting of floats and is not modelled. -/
structure RiskEntry where
  risk_type : String
  severity : String
  aircraft_id : String
  fleet_type : String
  base : String
  task_id : String
  task_name : String
  due_date : ℤ
  scheduled_date : Option ℤ
  deriving Repr, DecidableEq

/-! ## Scheduler (src/src/scheduler.py) -/

/-- The float tolerance `1e-9` used by the scheduler and risk classifier. -/
def tol : ℚ := 1 / 1000000000

/-- `crit_rank.get(x, 3)` with `crit_rank = {"High": 0, "Medium": 1, "Low": 2}`
(scheduler.py line 56/59). -/
def critRank (c : String) : ℕ :=
  if c = "High" then 0 else if c = "Medium" then 1 else if c = "Low" then 2 else 3

/-- Sort key of `df.sort_values(by=["due_date", "crit_rank", "labor_hours"],
ascending=[True, True, False])` (scheduler.py lines 60-63). -/
def entryOrder : ForecastEntry → ForecastEntry → Prop :=
  lex3 (fun e => e.due_date) (fun e => critRank e.criticality)
    (fun e => OrderDual.toDual e.labor_hours)

instance : DecidableRel entryOrder := lex3.decidableRel _ _ _
instance : IsTotal ForecastEntry entryOrder := lex3.isTotal _ _ _
instance : IsTrans ForecastEntry entryOrder := lex3.isTrans _ _ _

/-- Sort key of `cap.sort_values(["base", "date"])` (scheduler.py line 72). -/
def capOrder : CapRow → CapRow → Prop :=
  lex3 (fun s => s.base) (fun s => s.date) (fun _ => (0 : ℕ))

instance : DecidableRel capOrder := lex3.decidableRel _ _ _
instance : IsTotal CapRow capOrder := lex3.isTotal _ _ _
instance : IsTrans CapRow capOrder := lex3.isTrans _ _ _

/-- `build_capacity_calendar` (scheduler.py lines 23-41): one slot per
base per day from `start_date` through `start_date + horizon_days`,
used hours initialized to zero. -/
def build_capacity_calendar (bases : List String) (start_date : ℤ)
    (horizon_days : ℤ) (labor_hours_per_day : ℚ) : List CapSlot :=
  bases.flatMap fun base =>
    (List.range (horizon_days.toNat + 1)).map fun k =>
      { base := base, date := start_date + k,
        capacity_labor_hours := labor_hours_per_day, used_labor_hours := 0 }

/-- `cap["remaining_labor_hours"] = capacity - used` (scheduler.py line 66). -/
def addRemaining (s : CapSlot) : CapRow :=
  { base := s.base, date := s.date,
    capacity_labor_hours := s.capacity_labor_hours,
    used_labor_hours := s.used_labor_hours,
    remaining_labor_hours := s.capacity_labor_hours - s.used_labor_hours }

/-- `cap.drop(columns=["remaining_labor_hours"])` (scheduler.py line 131). -/
def dropRemaining (s : CapRow) : CapSlot :=
  { base := s.base, date := s.date,
    capacity_labor_hours := s.capacity_labor_hours,
    used_labor_hours := s.used_labor_hours }

/-- `pd.date_range(due_date - window_days, due_date, freq="D")`
(scheduler.py lines 82-83): empty when `window_days < 0`. -/
def windowDates (due_date window_days : ℤ) : List ℤ :=
  if 0 ≤ window_days then
    (List.range (window_days.toNat + 1)).map
      fun k : ℕ => due_date - window_days + (k : ℤ)
  else []

/-- The dict `cap_index = {(base, date): i for i, r in cap.iterrows()}`
(scheduler.py line 74): for a duplicated key the last row index wins. -/
def capIndex (cap : List CapRow) (base : String) (d : ℤ) : Option ℕ :=
  ((cap.enum.filter fun p => p.2.base = base ∧ p.2.date = d).map Prod.fst).getLast?

/-- The inner allocation loop over the window days (scheduler.py lines
88-105), threading the capacity table, the running allocated total and the
allocation list. A day with no slot or no remaining capacity is skipped
(`continue`); otherwise `take = min(remaining, needed - allocated)` is
allocated when positive, and the loop stops (`break`) once the running
total reaches the requirement within tolerance — the `break` test is
written once per branch of the `take > 0` test, which is the same control
flow as the source's mutate-then-test loop body. -/
def allocLoop (base : String) (labor_needed : ℚ) :
    List CapRow → ℚ → List (ℤ × ℚ) → List ℤ → List CapRow × ℚ × List (ℤ × ℚ)
  | cap, allocated, allocations, [] => (cap, allocated, allocations)
  | cap, allocated, allocations, d :: ds =>
    match capIndex cap base d with
    | none => allocLoop base labor_needed cap allocated allocations ds
    | some i =>
      let slot := cap.getD i default
      if slot.remaining_labor_hours ≤ 0 then
        allocLoop base labor_needed cap allocated allocations ds
      else
        let take := min slot.remaining_labor_hours (labor_needed - allocated)
        if 0 < take then
          let capUpd := cap.set i
            { slot with
              used_labor_hours := slot.used_labor_hours + take,
              remaining_labor_hours := slot.remaining_labor_hours - take }
          if labor_needed - tol ≤ allocated + take then
            (capUpd, allocated + take, allocations ++ [(d, take)])
          else
            allocLoop base labor_needed capUpd (allocated + take)
              (allocations ++ [(d, take)]) ds
        else
          if labor_needed - tol ≤ allocated then (cap, allocated, allocations)
          else allocLoop base labor_needed cap allocated allocations ds

/-- Finalization of one task (scheduler.py lines 107-128).
`allocations[-1]` on an empty list raises IndexError: modelled as `none`. -/
def finalizeEntry (task : ForecastEntry) (allocated : ℚ)
    (allocations : List (ℤ × ℚ)) : Option AllocResult :=
  if task.labor_hours - tol ≤ allocated then
    match allocations.getLast? with
    | none => none
    | some last =>
      some { entry := task, scheduled := true, scheduled_date := some last.1,
             scheduled_base := task.base, allocated_labor_hours := allocated }
  else
    some { entry := task, scheduled := false, scheduled_date := none,
           scheduled_base := task.base, allocated_labor_hours := allocated }

/-- One iteration of the `for _, task in df.iterrows()` loop
(scheduler.py lines 76-128). -/
def scheduleStep (st : List AllocResult × List CapRow) (task : ForecastEntry) :
    Option (List AllocResult × List CapRow) :=
  let out := allocLoop task.base task.labor_hours st.2 0 []
    (windowDates task.due_date task.window_days)
  match finalizeEntry task out.2.1 out.2.2 with
  | none => none
  | some r => some (st.1 ++ [r], out.1)

/-- The task loop threaded through `Option` so an IndexError aborts the run. -/
def scheduleFoldStep (acc : Option (List AllocResult × List CapRow))
    (task : ForecastEntry) : Option (List AllocResult × List CapRow) :=
  acc.bind fun st => scheduleStep st task

/-- The task processing order (scheduler.py lines 59-63). -/
def sortedForecast (forecast : List ForecastEntry) : List ForecastEntry :=
  forecast.insertionSort entryOrder

/-- The initial capacity state of the scheduler (scheduler.py lines 65-72). -/
def initialCap (capacity : List CapSlot) : List CapRow :=
  (capacity.map addRemaining).insertionSort capOrder

/-- `schedule_tasks_greedy` (scheduler.py lines 44-132). Returns the
scheduled table and the updated capacity table, or `none` when the Python
code would raise IndexError. -/
def schedule_tasks_greedy (forecast : List ForecastEntry)
    (capacity : List CapSlot) : Option (List AllocResult × List CapSlot) :=
  match (sortedForecast forecast).foldl scheduleFoldStep
      (some ([], initialCap capacity)) with
  | none => none
  | some st => some (st.1, st.2.map dropRemaining)

/-! ## Risk classifier (src/src/risk.py) -/

/-- Sort key of `risk_df.sort_values(by=["severity", "risk_type", "due_date"])`
(risk.py line 100): all three columns ascending, `severity` and `risk_type`
being plain strings compared lexicographically. -/
def riskOrder : RiskEntry → RiskEntry → Prop :=
  lex3 (fun e => e.severity) (fun e => e.risk_type) (fun e => e.due_date)

instance : DecidableRel riskOrder := lex3.decidableRel _ _ _
instance : IsTotal RiskEntry riskOrder := lex3.isTotal _ _ _
instance : IsTrans RiskEntry riskOrder := lex3.isTrans _ _ _

/-- A risk row with the fields shared by all four rules (risk.py). -/
def mkRisk (r : AllocResult) (ty : String) (sched : Option ℤ) : RiskEntry :=
  { risk_type := ty, severity := r.entry.criticality,
    aircraft_id := r.entry.aircraft_id, fleet_type := r.entry.fleet_type,
    base := r.entry.base, task_id := r.entry.task_id,
    task_name := r.entry.task_name, due_date := r.entry.due_date,
    scheduled_date := sched }

/-- The risk rows one scheduled-table row generates, in emission order
(risk.py lines 23-96): MISSED_WINDOW, CAPACITY_SHORTFALL, LATE_SCHEDULE,
OVERDUE. `pd.notna(sched)` is `Option.isSome`; `sched if scheduled else
pd.NaT` keeps the date only for scheduled rows. -/
def riskRowsFor (today : ℤ) (r : AllocResult) : List RiskEntry :=
  (if r.scheduled = false then [mkRisk r "MISSED_WINDOW" none] else []) ++
  (if r.allocated_labor_hours + tol < r.entry.labor_hours then
      [mkRisk r "CAPACITY_SHORTFALL" (if r.scheduled then r.scheduled_date else none)]
    else []) ++
  (if r.scheduled = true ∧ ∃ d, r.scheduled_date = some d ∧ r.entry.due_date < d then
      [mkRisk r "LATE_SCHEDULE" r.scheduled_date]
    else []) ++
  (if r.entry.due_date < today ∧
      (r.scheduled = false ∨ ∃ d, r.scheduled_date = some d ∧ r.entry.due_date < d) then
      [mkRisk r "OVERDUE" (if r.scheduled then r.scheduled_date else none)]
    else [])

/-- `build_risk_register` (risk.py lines 6-101): evaluate the four rules on
every row, then sort by (severity, risk_type, due_date). -/
def build_risk_register (scheduled : List AllocResult) (today : ℤ) :
    List RiskEntry :=
  ((scheduled.map (riskRowsFor today)).flatten).insertionSort riskOrder

/-! ## Simulator (src/src/simulator.py) -/

/-- `ForecastConfig` (simulator.py lines 10-15). -/
structure ForecastConfig where
  start_date : ℤ
  horizon_days : ℤ := 120
  seed_history : Bool := true
  deriving Repr, DecidableEq

/-- `CapacityConfig` (scheduler.py lines 8-13). -/
structure CapacityConfig where
  labor_hours_per_day : ℚ := 80
  horizon_days : ℤ := 120
  deriving Repr, DecidableEq

/-- `_seed_last_done_date` (simulator.py lines 18-24):
`start_date - timedelta(days=max(1, interval_days - offset_days))`. -/
def seed_last_done_date (start_date interval_days offset_days : ℤ) : ℤ :=
  start_date - max 1 (interval_days - offset_days)

/-- Sort key of `df.sort_values(by=["due_date", "criticality"])`
(simulator.py line 83): criticality compared as its raw label text. -/
def forecastOrder : ForecastEntry → ForecastEntry → Prop :=
  lex3 (fun e => e.due_date) (fun e => e.criticality) (fun _ => (0 : ℕ))

instance : DecidableRel forecastOrder := lex3.decidableRel _ _ _
instance : IsTotal ForecastEntry forecastOrder := lex3.isTotal _ _ _
instance : IsTrans ForecastEntry forecastOrder := lex3.isTrans _ _ _

/-- The due date `last_done + interval_days` computed for aircraft row `i`
and task row `j` (simulator.py lines 53-60): in seed-history mode
`last_done` comes from `_seed_last_done_date` with offset
`(i * 7 + j * 3) % max(2, interval_days)`, otherwise it is the start date. -/
def forecastDue (cfg : ForecastConfig) (i j : ℕ) (t : TaskDef) : ℤ :=
  (if cfg.seed_history then
      seed_last_done_date cfg.start_date t.interval_days
        (((i : ℤ) * 7 + (j : ℤ) * 3) % max 2 t.interval_days)
    else cfg.start_date) + t.interval_days

/-- The forecast row built for aircraft `ac` (fleet row index `i`) and task
`t` (task-table row index `j`) when its due date enters the horizon
(simulator.py lines 49-77). `iterrows` over the filtered task table yields
the original task-table row labels, so `j` is the task's position in the
unfiltered table. -/
def forecastRowsFor (cfg : ForecastConfig) (i : ℕ) (ac : Aircraft)
    (j : ℕ) (t : TaskDef) : List ForecastEntry :=
  if forecastDue cfg i j t ≤ cfg.start_date + cfg.horizon_days then
    [{ aircraft_id := ac.aircraft_id, fleet_type := ac.fleet_type,
       base := ac.base, task_id := t.task_id, task_name := t.task_name,
       criticality := t.criticality, labor_hours := t.labor_hours,
       interval_days := t.interval_days, window_days := t.window_days,
       due_date := forecastDue cfg i j t }]
  else []

/-- `build_forecast` (simulator.py lines 27-84). -/
def build_forecast (fleet : List Aircraft) (task_df : List TaskDef)
    (cfg : ForecastConfig) : List ForecastEntry :=
  (fleet.enum.flatMap fun p =>
    ((task_df.enum.filter fun q => q.2.fleet_type = p.2.fleet_type).flatMap
      fun q => forecastRowsFor cfg p.1 p.2 q.1 q.2)).insertionSort forecastOrder

/-- `sorted(fleet_df["base"].unique().tolist())` (simulator.py line 97):
the distinct bases in ascending order. -/
def sortedBases (fleet : List Aircraft) : List String :=
  ((fleet.map fun ac => ac.base).dedup).insertionSort (· ≤ ·)

/-- `run_simulation` (simulator.py lines 87-107): an empty forecast
returns the empty tables; otherwise the result of the greedy scheduler
(`none` when the scheduler raises). -/
def run_simulation (fleet : List Aircraft) (task_df : List TaskDef)
    (forecast_cfg : ForecastConfig) (capacity_cfg : CapacityConfig) :
    Option (List AllocResult × List CapSlot) :=
  let forecast := build_forecast fleet task_df forecast_cfg
  if forecast.isEmpty then some ([], [])
  else
    schedule_tasks_greedy forecast
      (build_capacity_calendar (sortedBases fleet) forecast_cfg.start_date
        capacity_cfg.horizon_days capacity_cfg.labor_hours_per_day)

/-- The whole pipeline: simulation plus the risk register built from the
scheduled table with the given as-of date (main.py lines 105-134). -/
def run_pipeline (fleet : List Aircraft) (task_df : List TaskDef)
    (forecast_cfg : ForecastConfig) (capacity_cfg : CapacityConfig)
    (today : ℤ) : Option (List AllocResult × List CapSlot × List RiskEntry) :=
  (run_simulation fleet task_df forecast_cfg capacity_cfg).map fun st =>
    (st.1, st.2, build_risk_register st.1 today)

/-! ## Pipeline entry point (src/src/main.py) -/

/-- The per-base daily labor capacity computed by `run` (main.py lines
32-36): a fixed fallback of 40 for any multiplier below 0.5, otherwise
`int(160 * capacity_multiplier)` (truncation, which on this branch the
product is at least 80, so it equals the floor). -/
def capacity_per_day (capacity_multiplier : ℚ) : ℤ :=
  if capacity_multiplier < 1 / 2 then 40
  else Int.floor (160 * capacity_multiplier)

/-- The mapping `run` returns (main.py lines 52-60); the function body's
remaining bindings are local and unused in the returned value. -/
def runOutputPaths : List (String × String) :=
  [("maintenance_plan", "reports/maintenance_plan.csv"),
   ("capacity_calendar", "reports/capacity_calendar.csv"),
   ("risk_register", "reports/risk_register.csv"),
   ("workload_chart", "reports/workload_vs_capacity.png")]

/-- `run` (main.py lines 16-60): computes the capacity and returns the
report-path mapping; it never fails. -/
def run (capacity_multiplier : ℚ) : ℤ × List (String × String) :=
  (capacity_per_day capacity_multiplier, runOutputPaths)

/-! ## Fixtures for witnesses and counterexamples -/

/-- The capacity-table invariant threaded through allocation: used hours
within budget, and the derived remaining-hours column consistent. -/
def CapInv (cap : List CapRow) : Prop :=
  ∀ s ∈ cap, s.used_labor_hours ≤ s.capacity_labor_hours ∧
    s.remaining_labor_hours = s.capacity_labor_hours - s.used_labor_hours

/-- Fixture: an unscheduled, fully-allocated Medium-criticality result. -/
def exResMed : AllocResult :=
  { entry := { aircraft_id := "A1", fleet_type := "F", base := "B",
               task_id := "T1", task_name := "chk", criticality := "Medium",
               labor_hours := 10, interval_days := 30, window_days := 2,
               due_date := 5 },
    scheduled := false, scheduled_date := none, scheduled_base := "B",
    allocated_labor_hours := 10 }

/-- Fixture: an unscheduled, fully-allocated Low-criticality result. -/
def exResLow : AllocResult :=
  { entry := { aircraft_id := "A2", fleet_type := "F", base := "B",
               task_id := "T2", task_name := "lube", criticality := "Low",
               labor_hours := 10, interval_days := 30, window_days := 2,
               due_date := 5 },
    scheduled := false, scheduled_date := none, scheduled_base := "B",
    allocated_labor_hours := 10 }

/-- The risk row `exResLow` generates (a MISSED_WINDOW entry). -/
def exRiskLow : RiskEntry :=
  { risk_type := "MISSED_WINDOW", severity := "Low", aircraft_id := "A2",
    fleet_type := "F", base := "B", task_id := "T2", task_name := "lube",
    due_date := 5, scheduled_date := none }

/-- The risk row `exResMed` generates (a MISSED_WINDOW entry). -/
def exRiskMed : RiskEntry :=
  { risk_type := "MISSED_WINDOW", severity := "Medium", aircraft_id := "A1",
    fleet_type := "F", base := "B", task_id := "T1", task_name := "chk",
    due_date := 5, scheduled_date := none }

/-- Fixture: an aircraft of fleet type "F" at base "B". -/
def exAircraft : Aircraft :=
  { aircraft_id := "A1", fleet_type := "F", base := "B" }

/-- Fixture: a task definition applicable to fleet type "F". -/
def exTask : TaskDef :=
  { task_id := "T1", task_name := "chk", fleet_type := "F",
    criticality := "High", labor_hours := 10, interval_days := 30,
    window_days := 2 }

/-- Fixture: a one-hour task due on day 0 with a zero-day window. -/
def eW : ForecastEntry :=
  { aircraft_id := "A1", fleet_type := "F", base := "B", task_id := "T1",
    task_name := "chk", criticality := "High", labor_hours := 1,
    interval_days := 30, window_days := 0, due_date := 0 }

/-- Fixture: a two-hour capacity slot at base "B" on day 0. -/
def sW : CapSlot :=
  { base := "B", date := 0, capacity_labor_hours := 2, used_labor_hours := 0 }

/-- The allocation result the scheduler produces for `eW` against `[sW]`. -/
def rW : AllocResult :=
  { entry := eW, scheduled := true, scheduled_date := some 0,
    scheduled_base := "B", allocated_labor_hours := 1 }

/-- The capacity table the scheduler returns for `[eW]` against `[sW]`. -/
def sWUsed : CapSlot :=
  { base := "B", date := 0, capacity_labor_hours := 2, used_labor_hours := 1 }

/-- Fixture: a task whose labor hours `1/10^10` are positive but below the
`1e-9` tolerance. -/
def eTiny : ForecastEntry :=
  { aircraft_id := "A1", fleet_type := "F", base := "B", task_id := "T1",
    task_name := "chk", criticality := "High",
    labor_hours := 1 / 10000000000, interval_days := 30, window_days := 0,
    due_date := 0 }

/-- Fixture: a zero-hours task (the amended C8 failing input). -/
def eZero : ForecastEntry :=
  { aircraft_id := "A1", fleet_type := "F", base := "B", task_id := "T1",
    task_name := "chk", criticality := "High", labor_hours := 0,
    interval_days := 30, window_days := 0, due_date := 0 }

/-! ## Supporting lemmas -/

lemma foldl_scheduleFoldStep_none (l : List ForecastEntry) :
    l.foldl scheduleFoldStep none = none := by
  induction l with
  | nil => rfl
  | cons t l ih => simpa [scheduleFoldStep] using ih

lemma foldl_scheduleFoldStep_invariant (Q : List AllocResult × List CapRow → Prop)
    (hstep : ∀ st task st', scheduleStep st task = some st' → Q st → Q st') :
    ∀ (l : List ForecastEntry) (st st' : List AllocResult × List CapRow),
      l.foldl scheduleFoldStep (some st) = some st' → Q st → Q st' := by
  intro l
  induction l with
  | nil =>
    intro st st' h hQ
    simp only [List.foldl_nil, Option.some.injEq] at h
    exact h ▸ hQ
  | cons t l ih =>
    intro st st' h hQ
    rw [List.foldl_cons] at h
    have hbind : scheduleFoldStep (some st) t = scheduleStep st t := rfl
    rw [hbind] at h
    cases hs : scheduleStep st t with
    | none =>
      rw [hs, foldl_scheduleFoldStep_none] at h
      exact absurd h (by simp)
    | some st1 =>
      rw [hs] at h
      exact ih st1 st' h (hstep st t st1 hs hQ)

lemma scheduleStep_some {st st' : List AllocResult × List CapRow}
    {task : ForecastEntry} (h : scheduleStep st task = some st') :
    ∃ r, finalizeEntry task
        (allocLoop task.base task.labor_hours st.2 0 []
          (windowDates task.due_date task.window_days)).2.1
        (allocLoop task.base task.labor_hours st.2 0 []
          (windowDates task.due_date task.window_days)).2.2 = some r ∧
      st'.1 = st.1 ++ [r] ∧
      st'.2 = (allocLoop task.base task.labor_hours st.2 0 []
        (windowDates task.due_date task.window_days)).1 := by
  simp only [scheduleStep] at h
  cases hf : finalizeEntry task
      (allocLoop task.base task.labor_hours st.2 0 []
        (windowDates task.due_date task.window_days)).2.1
      (allocLoop task.base task.labor_hours st.2 0 []
        (windowDates task.due_date task.window_days)).2.2 with
  | none => rw [hf] at h; exact absurd h (by simp)
  | some r =>
    rw [hf] at h
    simp only [Option.some.injEq] at h
    exact ⟨r, rfl, by rw [← h], by rw [← h]⟩

lemma finalizeEntry_some {task : ForecastEntry} {allocated : ℚ}
    {allocations : List (ℤ × ℚ)} {r : AllocResult}
    (h : finalizeEntry task allocated allocations = some r) :
    r.entry = task ∧ r.allocated_labor_hours = allocated ∧
      (r.scheduled = true ↔ task.labor_hours - tol ≤ allocated) ∧
      (r.scheduled = false → r.scheduled_date = none) ∧
      (r.scheduled = true →
        ∃ p, allocations.getLast? = some p ∧ r.scheduled_date = some p.1) := by
  unfold finalizeEntry at h
  split_ifs at h with hc
  · cases hl : allocations.getLast? with
    | none => rw [hl] at h; exact absurd h (by simp)
    | some last =>
      rw [hl] at h
      simp only [Option.some.injEq] at h
      subst h
      refine ⟨rfl, rfl, by simpa using hc, by simp, fun _ => ⟨last, rfl, rfl⟩⟩
  · simp only [Option.some.injEq] at h
    subst h
    exact ⟨rfl, rfl, by simpa using hc, fun _ => rfl, by simp⟩


lemma CapInv.set_alloc {cap : List CapRow} (h : CapInv cap) {i : ℕ} {take : ℚ}
    (hpos : 0 < (cap.getD i default).remaining_labor_hours)
    (htake : take ≤ (cap.getD i default).remaining_labor_hours) :
    CapInv (cap.set i
      { cap.getD i default with
        used_labor_hours := (cap.getD i default).used_labor_hours + take,
        remaining_labor_hours :=
          (cap.getD i default).remaining_labor_hours - take }) := by
  intro s hs
  rcases List.mem_or_eq_of_mem_set hs with hs | rfl
  · exact h s hs
  · by_cases hi : i < cap.length
    · have hEq : cap.getD i default = cap.get ⟨i, hi⟩ := by
        rw [List.getD_eq_getElem?_getD, List.getElem?_eq_getElem hi]
        rfl
      have hmem : cap.getD i default ∈ cap := hEq ▸ List.get_mem cap i hi
      obtain ⟨h1, h2⟩ := h _ hmem
      constructor
      · show (cap.getD i default).used_labor_hours + take
          ≤ (cap.getD i default).capacity_labor_hours
        linarith
      · show (cap.getD i default).remaining_labor_hours - take
          = (cap.getD i default).capacity_labor_hours
            - ((cap.getD i default).used_labor_hours + take)
        linarith
    · exfalso
      have h0 : cap.getD i default = default := by
        rw [List.getD_eq_getElem?_getD, List.getElem?_eq_none (by omega)]
        rfl
      rw [h0] at hpos
      exact lt_irrefl 0 hpos

lemma allocLoop_capInv (base : String) (need : ℚ) :
    ∀ (days : List ℤ) (cap : List CapRow) (allocated : ℚ)
      (allocations : List (ℤ × ℚ)), CapInv cap →
      CapInv (allocLoop base need cap allocated allocations days).1 := by
  intro days
  induction days with
  | nil => intro cap allocated allocations h; exact h
  | cons d ds ih =>
    intro cap allocated allocations h
    simp only [allocLoop]
    split
    · exact ih cap allocated allocations h
    · rename_i i hidx
      split
      · exact ih cap allocated allocations h
      · rename_i hrem
        split
        · rename_i htk
          split
          · exact h.set_alloc (lt_of_not_le hrem) (min_le_left _ _)
          · exact ih _ _ _ (h.set_alloc (lt_of_not_le hrem) (min_le_left _ _))
        · split
          · exact h
          · exact ih cap allocated allocations h

lemma allocLoop_allocations_mem (base : String) (need : ℚ) :
    ∀ (days : List ℤ) (cap : List CapRow) (allocated : ℚ)
      (allocations : List (ℤ × ℚ)) (p : ℤ × ℚ),
      p ∈ (allocLoop base need cap allocated allocations days).2.2 →
      p ∈ allocations ∨ p.1 ∈ days := by
  intro days
  induction days with
  | nil => intro cap allocated allocations p h; exact Or.inl h
  | cons d ds ih =>
    intro cap allocated allocations p h
    simp only [allocLoop] at h
    split at h
    · exact (ih _ _ _ _ h).imp id (List.mem_cons_of_mem d)
    · split at h
      · exact (ih _ _ _ _ h).imp id (List.mem_cons_of_mem d)
      · split at h
        · split at h
          · rcases List.mem_append.mp h with hp | hp
            · exact Or.inl hp
            · rw [List.mem_singleton] at hp
              subst hp
              exact Or.inr (List.mem_cons_self d ds)
          · rcases ih _ _ _ _ h with hp | hp
            · rcases List.mem_append.mp hp with hp | hp
              · exact Or.inl hp
              · rw [List.mem_singleton] at hp
                subst hp
                exact Or.inr (List.mem_cons_self d ds)
            · exact Or.inr (List.mem_cons_of_mem d hp)
        · split at h
          · exact Or.inl h
          · exact (ih _ _ _ _ h).imp id (List.mem_cons_of_mem d)


/-- **C2.** `schedule_tasks_greedy` processes the forecast in the order
`sortedForecast`: a permutation of the input that is sorted by due date
ascending, then criticality rank ascending (High 0, Medium 1, Low 2, any
other label 3), then labor hours descending. -/
theorem scheduler_processing_order (forecast : List ForecastEntry) :
    List.Pairwise (fun a b : ForecastEntry =>
        a.due_date < b.due_date ∨ (a.due_date = b.due_date ∧
          (critRank a.criticality < critRank b.criticality ∨
            (critRank a.criticality = critRank b.criticality ∧
              b.labor_hours ≤ a.labor_hours))))
      (sortedForecast forecast)
    ∧ (sortedForecast forecast).Perm forecast
    ∧ critRank "High" = 0 ∧ critRank "Medium" = 1 ∧ critRank "Low" = 2
    ∧ ∀ c, c ≠ "High" → c ≠ "Medium" → c ≠ "Low" → critRank c = 3 := by
  refine ⟨?_, List.perm_insertionSort entryOrder forecast, rfl, rfl, rfl, ?_⟩
  · have hs := List.sorted_insertionSort entryOrder forecast
    refine hs.imp ?_
    intro a b h
    simpa [entryOrder, lex3] using h
  · intro c h1 h2 h3
    simp [critRank, h1, h2, h3]

/-- Witness for C2 at concrete inputs. -/
theorem scheduler_processing_order_witness :
    ("Severe" ≠ "High" ∧ "Severe" ≠ "Medium" ∧ "Severe" ≠ "Low") ∧
      critRank "Severe" = 3 := by
  refine ⟨⟨by decide, by decide, by decide⟩, ?_⟩
  exact (scheduler_processing_order []).2.2.2.2.2 "Severe" (by decide) (by decide)
    (by decide)

/-! ## Claim C3: risk register output ordering -/





/-- **C3 counterexample.** The register is NOT ordered by criticality rank:
with one Medium and one Low row the sort on the raw severity label puts the
Low entry first ("Low" < "Medium" lexicographically), so the rank-ordered
Pairwise property the claim states fails. -/
theorem risk_register_rank_order_counterexample :
    ¬ List.Pairwise (fun a b : RiskEntry =>
        critRank a.severity < critRank b.severity ∨
          (critRank a.severity = critRank b.severity ∧
            (a.risk_type < b.risk_type ∨
              (a.risk_type = b.risk_type ∧ a.due_date ≤ b.due_date))))
      (build_risk_register [exResMed, exResLow] 0) := by
  have hreg : build_risk_register [exResMed, exResLow] 0
      = [exRiskLow, exRiskMed] := by
    norm_num [build_risk_register, riskRowsFor, mkRisk, tol, exResMed,
      exResLow, List.insertionSort, List.orderedInsert, riskOrder, lex3,
      exRiskLow, exRiskMed]
    decide
  rw [hreg]
  decide

/-- **C3 amended.** The risk register is ordered by the severity label in
lexicographic string order (so "High" < "Low" < "Medium"), then risk type,
then due date ascending. -/
theorem risk_register_label_order (results : List AllocResult) (today : ℤ) :
    List.Pairwise (fun a b : RiskEntry =>
        a.severity < b.severity ∨ (a.severity = b.severity ∧
          (a.risk_type < b.risk_type ∨
            (a.risk_type = b.risk_type ∧ a.due_date ≤ b.due_date))))
      (build_risk_register results today) :=
  List.sorted_insertionSort riskOrder ((results.map (riskRowsFor today)).flatten)

/-! ## Claim C5: OVERDUE emission condition -/

lemma countP_overdue_mkRisk_ne (r : AllocResult) (ty : String) (sch : Option ℤ)
    (h : ty ≠ "OVERDUE") (c : Prop) [Decidable c] :
    List.countP (fun e => decide (e.risk_type = "OVERDUE"))
      (if c then [mkRisk r ty sch] else []) = 0 := by
  split_ifs with hc
  · simp [mkRisk, List.countP_cons, h]
  · rfl

lemma countP_overdue_riskRowsFor (today : ℤ) (r : AllocResult) :
    (riskRowsFor today r).countP (fun e => decide (e.risk_type = "OVERDUE"))
      = if r.entry.due_date < today ∧
            (r.scheduled = false ∨
              ∃ d, r.scheduled_date = some d ∧ r.entry.due_date < d)
        then 1 else 0 := by
  unfold riskRowsFor
  simp only [List.countP_append,
    countP_overdue_mkRisk_ne r "MISSED_WINDOW" none (by decide),
    countP_overdue_mkRisk_ne r "CAPACITY_SHORTFALL"
      (if r.scheduled then r.scheduled_date else none) (by decide),
    countP_overdue_mkRisk_ne r "LATE_SCHEDULE" r.scheduled_date (by decide),
    zero_add]
  by_cases hc : r.entry.due_date < today ∧
      (r.scheduled = false ∨ ∃ d, r.scheduled_date = some d ∧ r.entry.due_date < d)
  · rw [if_pos hc, if_pos hc]
    simp [mkRisk, List.countP_cons]
  · rw [if_neg hc, if_neg hc]
    exact List.countP_nil _

/-- **C5.** `build_risk_register` emits exactly one OVERDUE row per input
row whose due date is strictly before the as-of date and which is either
unscheduled or scheduled strictly after its due date, and no others. -/
theorem risk_overdue_iff (results : List AllocResult) (today : ℤ) :
    (build_risk_register results today).countP
        (fun e => decide (e.risk_type = "OVERDUE"))
      = results.countP (fun r => decide (r.entry.due_date < today ∧
          (r.scheduled = false ∨
            ∃ d, r.scheduled_date = some d ∧ r.entry.due_date < d))) := by
  unfold build_risk_register
  rw [(List.perm_insertionSort riskOrder _).countP_eq]
  induction results with
  | nil => rfl
  | cons r rs ih =>
    simp only [List.map_cons, List.flatten_cons, List.countP_append, ih,
      List.countP_cons, countP_overdue_riskRowsFor]
    by_cases h : r.entry.due_date < today ∧
        (r.scheduled = false ∨
          ∃ d, r.scheduled_date = some d ∧ r.entry.due_date < d) <;>
      simp [h] <;> omega

/-! ## Claim C6: capacity for non-positive multiplier -/

/-- **C6 counterexample.** At multiplier 0 the code sets the daily capacity
to the fixed fallback 40, not to the claimed clamp `max 1` of the scaled
baseline (which would be 1). -/
theorem run_capacity_clamp_counterexample :
    capacity_per_day 0 = 40 ∧ max 1 (Int.floor ((160 : ℚ) * 0)) = 1 ∧
      (40 : ℤ) ≠ 1 := by
  refine ⟨?_, by norm_num, by norm_num⟩
  norm_num [capacity_per_day]

/-- **C6 amended.** For a zero or negative capacity multiplier the entry
point sets the per-base daily capacity to the fixed fallback 40 (used for
any multiplier below 0.5), which is positive, and `run` still returns its
output mapping (it never fails). -/
theorem run_capacity_fallback (m : ℚ) (hm : m ≤ 0) :
    capacity_per_day m = 40 ∧ 1 ≤ capacity_per_day m ∧
      run m = (40, runOutputPaths) := by
  have h : m < 1 / 2 := lt_of_le_of_lt hm (by norm_num)
  have hcap : capacity_per_day m = 40 := by
    unfold capacity_per_day
    rw [if_pos h]
  refine ⟨hcap, by rw [hcap]; norm_num, ?_⟩
  unfold run
  rw [hcap]

/-- Witness for C6 amended at multiplier 0. -/
theorem run_capacity_fallback_witness :
    (0 : ℚ) ≤ 0 ∧ (capacity_per_day 0 = 40 ∧ 1 ≤ capacity_per_day 0 ∧
      run 0 = (40, runOutputPaths)) :=
  ⟨le_refl 0, run_capacity_fallback 0 (le_refl 0)⟩

/-! ## Claim C7: pipeline determinism -/

/-- **C7.** The pipeline is deterministic: identical fleet and task tables,
forecast configuration, capacity configuration and as-of date produce
identical plan, capacity and risk tables. -/
theorem pipeline_deterministic (fleet₁ fleet₂ : List Aircraft)
    (tasks₁ tasks₂ : List TaskDef) (fcfg₁ fcfg₂ : ForecastConfig)
    (ccfg₁ ccfg₂ : CapacityConfig) (t₁ t₂ : ℤ)
    (hf : fleet₁ = fleet₂) (ht : tasks₁ = tasks₂) (hfc : fcfg₁ = fcfg₂)
    (hcc : ccfg₁ = ccfg₂) (htoday : t₁ = t₂) :
    run_pipeline fleet₁ tasks₁ fcfg₁ ccfg₁ t₁
      = run_pipeline fleet₂ tasks₂ fcfg₂ ccfg₂ t₂ := by
  subst hf; subst ht; subst hfc; subst hcc; subst htoday; rfl

/-- Witness for C7 at concrete inputs. -/
theorem pipeline_deterministic_witness :
    run_pipeline [] [] ⟨0, 120, true⟩ ⟨80, 120⟩ 0
      = run_pipeline [] [] ⟨0, 120, true⟩ ⟨80, 120⟩ 0 :=
  pipeline_deterministic [] [] [] [] ⟨0, 120, true⟩ ⟨0, 120, true⟩
    ⟨80, 120⟩ ⟨80, 120⟩ 0 0 rfl rfl rfl rfl rfl

/-! ## Claim C10: seeded forecast entries are never already overdue -/



/-- **C10.** In seeded-history mode, when every task interval is at least
1 day, every forecast entry's due date is on or after the forecast start
date. -/
theorem seeded_forecast_not_overdue (fleet : List Aircraft)
    (task_df : List TaskDef) (cfg : ForecastConfig)
    (hseed : cfg.seed_history = true)
    (hint : ∀ t ∈ task_df, 1 ≤ t.interval_days) :
    ∀ e ∈ build_forecast fleet task_df cfg, cfg.start_date ≤ e.due_date := by
  intro e he
  unfold build_forecast at he
  rw [List.mem_insertionSort, List.mem_flatMap] at he
  obtain ⟨p, _, he⟩ := he
  rw [List.mem_flatMap] at he
  obtain ⟨q, hq, he⟩ := he
  have hq2 : q.2 ∈ task_df := by
    have hg := List.mem_enum_iff_get?.mp (List.mem_of_mem_filter hq)
    exact List.get?_mem hg
  have hI : 1 ≤ q.2.interval_days := hint _ hq2
  unfold forecastRowsFor at he
  by_cases hc : forecastDue cfg p.1 q.1 q.2
      ≤ cfg.start_date + cfg.horizon_days
  · rw [if_pos hc] at he
    simp only [List.mem_singleton] at he
    subst he
    show cfg.start_date ≤ forecastDue cfg p.1 q.1 q.2
    unfold forecastDue
    rw [hseed, if_pos rfl]
    unfold seed_last_done_date
    set o : ℤ := ((p.1 : ℤ) * 7 + (q.1 : ℤ) * 3) % max 2 q.2.interval_days
      with ho
    have hmax : (2 : ℤ) ≤ max 2 q.2.interval_days := le_max_left _ _
    have ho2 : 0 ≤ o := Int.emod_nonneg _ (by omega)
    rcases le_total (q.2.interval_days - o) 1 with h | h
    · rw [max_eq_left h]; linarith
    · rw [max_eq_right h]; linarith
  · rw [if_neg hc] at he
    exact absurd he (by simp)

/-- Witness for C10 at a concrete fleet, task table and configuration. -/
theorem seeded_forecast_not_overdue_witness :
    ((⟨0, 120, true⟩ : ForecastConfig).seed_history = true ∧
      ∀ t ∈ [exTask], 1 ≤ t.interval_days) ∧
      ∀ e ∈ build_forecast [exAircraft] [exTask] ⟨0, 120, true⟩,
        (0 : ℤ) ≤ e.due_date :=
  ⟨⟨rfl, by decide⟩,
    seeded_forecast_not_overdue [exAircraft] [exTask] ⟨0, 120, true⟩ rfl
      (by decide)⟩

/-! ## Lemmas for claims C1, C4, C8, C9 -/

lemma mem_ite_singleton {α : Type} {c : Prop} [Decidable c] {x e : α}
    (h : e ∈ (if c then [x] else [])) : c ∧ e = x := by
  split_ifs at h with hc
  · exact ⟨hc, List.mem_singleton.mp h⟩
  · exact absurd h (by simp)

lemma mem_windowDates_le {due w d : ℤ} (h : d ∈ windowDates due w) :
    d ≤ due := by
  unfold windowDates at h
  split_ifs at h with hw
  · obtain ⟨k, hk, rfl⟩ := List.mem_map.mp h
    have := List.mem_range.mp hk
    omega
  · exact absurd h (by simp)

lemma allocLoop_nonpos (base : String) {need : ℚ} (hneed : need ≤ 0) :
    ∀ (days : List ℤ) (cap : List CapRow),
      allocLoop base need cap 0 [] days = (cap, 0, []) := by
  intro days
  induction days with
  | nil => intro cap; rfl
  | cons d ds ih =>
    intro cap
    simp only [allocLoop]
    split
    · exact ih cap
    · rename_i i hidx
      split
      · exact ih cap
      · rename_i hrem
        have htk : ¬ 0 < min (cap.getD i default).remaining_labor_hours
            (need - 0) := by
          simp only [not_lt]
          have h1 : min (cap.getD i default).remaining_labor_hours (need - 0)
              ≤ need - 0 := min_le_right _ _
          linarith
        rw [if_neg htk]
        have hfin : need - tol ≤ 0 := by
          have h0 : (0 : ℚ) < tol := by norm_num [tol]
          linarith
        rw [if_pos hfin]

lemma finalizeEntry_nonpos {task : ForecastEntry}
    (h : task.labor_hours ≤ 0) : finalizeEntry task 0 [] = none := by
  unfold finalizeEntry
  rw [if_pos (show task.labor_hours - tol ≤ 0 by
    have h0 : (0 : ℚ) < tol := by norm_num [tol]
    linarith)]
  rfl

lemma scheduleStep_nonpos {st : List AllocResult × List CapRow}
    {task : ForecastEntry} (h : task.labor_hours ≤ 0) :
    scheduleStep st task = none := by
  simp only [scheduleStep, allocLoop_nonpos task.base h,
    finalizeEntry_nonpos h]

lemma fold_results_pres (P : AllocResult → Prop)
    (hP : ∀ (st : List AllocResult × List CapRow) (task : ForecastEntry) r,
      finalizeEntry task
        (allocLoop task.base task.labor_hours st.2 0 []
          (windowDates task.due_date task.window_days)).2.1
        (allocLoop task.base task.labor_hours st.2 0 []
          (windowDates task.due_date task.window_days)).2.2 = some r → P r) :
    ∀ st task st', scheduleStep st task = some st' →
      (∀ r ∈ st.1, P r) → ∀ r ∈ st'.1, P r := by
  intro st task st' h hQ r hr
  obtain ⟨r0, hf, h1, _⟩ := scheduleStep_some h
  rw [h1] at hr
  rcases List.mem_append.mp hr with hr | hr
  · exact hQ r hr
  · rw [List.mem_singleton] at hr
    subst hr
    exact hP st task r hf

lemma schedule_tasks_greedy_some {forecast : List ForecastEntry}
    {capacity : List CapSlot} {res : List AllocResult} {capOut : List CapSlot}
    (h : schedule_tasks_greedy forecast capacity = some (res, capOut)) :
    ∃ st, (sortedForecast forecast).foldl scheduleFoldStep
        (some ([], initialCap capacity)) = some st ∧
      res = st.1 ∧ capOut = st.2.map dropRemaining := by
  unfold schedule_tasks_greedy at h
  cases hfold : (sortedForecast forecast).foldl scheduleFoldStep
      (some ([], initialCap capacity)) with
  | none => rw [hfold] at h; exact absurd h (by simp)
  | some st =>
    rw [hfold] at h
    simp only [Option.some.injEq, Prod.mk.injEq] at h
    exact ⟨st, rfl, h.1.symm, h.2.symm⟩

/-! ## Claim C1: capacity never exceeded -/

/-- **C1.** If every input capacity slot starts within budget, then after
every step of the allocation (every prefix of the processing order) and in
the returned capacity table, every slot's used hours are at most its
capacity budget. -/
theorem scheduler_capacity_never_exceeded (forecast : List ForecastEntry)
    (capacity : List CapSlot)
    (hinv : ∀ s ∈ capacity, s.used_labor_hours ≤ s.capacity_labor_hours) :
    (∀ pfx sfx st, sortedForecast forecast = pfx ++ sfx →
        pfx.foldl scheduleFoldStep (some ([], initialCap capacity)) = some st →
        ∀ s ∈ st.2, s.used_labor_hours ≤ s.capacity_labor_hours)
    ∧ ∀ res capOut, schedule_tasks_greedy forecast capacity = some (res, capOut) →
        ∀ s ∈ capOut, s.used_labor_hours ≤ s.capacity_labor_hours := by
  have hinit : CapInv (initialCap capacity) := by
    intro s hs
    unfold initialCap at hs
    rw [List.mem_insertionSort, List.mem_map] at hs
    obtain ⟨s0, hs0, rfl⟩ := hs
    exact ⟨hinv s0 hs0, rfl⟩
  have hstep : ∀ st task st', scheduleStep st task = some st' →
      CapInv st.2 → CapInv st'.2 := by
    intro st task st' h hC
    obtain ⟨r, _, _, h2⟩ := scheduleStep_some h
    rw [h2]
    exact allocLoop_capInv _ _ _ _ _ _ hC
  constructor
  · intro pfx _ st _ hfold s hmem
    exact ((foldl_scheduleFoldStep_invariant (fun st => CapInv st.2) hstep
      pfx _ st hfold hinit) s hmem).1
  · intro res capOut h s hmem
    obtain ⟨st, hfold, _, h2⟩ := schedule_tasks_greedy_some h
    have hC : CapInv st.2 :=
      foldl_scheduleFoldStep_invariant (fun st => CapInv st.2) hstep
        _ _ _ hfold hinit
    rw [h2, List.mem_map] at hmem
    obtain ⟨s0, hs0, rfl⟩ := hmem
    exact (hC s0 hs0).1

/-- Witness for C1 at a concrete forecast and capacity table. -/
theorem scheduler_capacity_never_exceeded_witness :
    (∀ s ∈ [sW], s.used_labor_hours ≤ s.capacity_labor_hours) ∧
      ∀ res capOut, schedule_tasks_greedy [eW] [sW] = some (res, capOut) →
        ∀ s ∈ capOut, s.used_labor_hours ≤ s.capacity_labor_hours := by
  have hinv : ∀ s ∈ [sW], s.used_labor_hours ≤ s.capacity_labor_hours := by
    intro s hs
    rw [List.mem_singleton] at hs
    subst hs
    norm_num [sW]
  exact ⟨hinv, (scheduler_capacity_never_exceeded [eW] [sW] hinv).2⟩

/-! ## Claim C4: scheduled iff fully allocated within tolerance -/

/-- **C4.** Every returned allocation result is marked scheduled exactly
when its allocated total reaches the required hours within the 1e-9
tolerance, and an unscheduled result keeps its partial total and has no
scheduled date. -/
theorem scheduler_scheduled_iff_full (forecast : List ForecastEntry)
    (capacity : List CapSlot) (res : List AllocResult) (capOut : List CapSlot)
    (h : schedule_tasks_greedy forecast capacity = some (res, capOut)) :
    ∀ r ∈ res,
      (r.scheduled = true ↔
        r.entry.labor_hours - tol ≤ r.allocated_labor_hours)
      ∧ (r.scheduled = false → r.scheduled_date = none) := by
  obtain ⟨st, hfold, h1, _⟩ := schedule_tasks_greedy_some h
  subst h1
  refine foldl_scheduleFoldStep_invariant
    (fun st => ∀ r ∈ st.1, (r.scheduled = true ↔
        r.entry.labor_hours - tol ≤ r.allocated_labor_hours)
      ∧ (r.scheduled = false → r.scheduled_date = none))
    (fold_results_pres _ ?_) _ _ _ hfold (by simp)
  intro st task r hf
  obtain ⟨he, ha, hiff, hdate, _⟩ := finalizeEntry_some hf
  rw [he, ha]
  exact ⟨hiff, hdate⟩

/-- Witness for C4 at a concrete forecast and capacity table. -/
theorem scheduler_scheduled_iff_full_witness :
    schedule_tasks_greedy [eW] [sW] = some ([rW], [sWUsed]) ∧
      ∀ r ∈ [rW],
        (r.scheduled = true ↔
          r.entry.labor_hours - tol ≤ r.allocated_labor_hours)
        ∧ (r.scheduled = false → r.scheduled_date = none) := by
  have h : schedule_tasks_greedy [eW] [sW] = some ([rW], [sWUsed]) := by
    norm_num [schedule_tasks_greedy, sortedForecast, initialCap,
      scheduleFoldStep, scheduleStep, allocLoop, finalizeEntry, capIndex,
      windowDates, addRemaining, dropRemaining, tol, eW, sW, rW, sWUsed,
      List.insertionSort, List.orderedInsert, entryOrder, capOrder, lex3,
      List.range, List.range.loop, min_def]
  exact ⟨h, scheduler_scheduled_iff_full [eW] [sW] [rW] [sWUsed] h⟩

/-! ## Claim C8: zero-hours entries crash the scheduler -/

/-- **C8 counterexample.** A forecast entry whose labor hours `1/10^10` are
positive but at most the 1e-9 tolerance does NOT make the scheduler fail
when capacity is available in its window: the run returns a result set. -/
theorem scheduler_tiny_hours_counterexample :
    (eTiny.labor_hours ≤ tol ∧ 0 < eTiny.labor_hours) ∧
      schedule_tasks_greedy [eTiny] [sW] ≠ none := by
  have h : schedule_tasks_greedy [eTiny] [sW] = some
      ([{ entry := eTiny, scheduled := true, scheduled_date := some 0,
          scheduled_base := "B", allocated_labor_hours := 1 / 10000000000 }],
        [{ base := "B", date := 0, capacity_labor_hours := 2,
           used_labor_hours := 1 / 10000000000 }]) := by
    norm_num [schedule_tasks_greedy, sortedForecast, initialCap,
      scheduleFoldStep, scheduleStep, allocLoop, finalizeEntry, capIndex,
      windowDates, addRemaining, dropRemaining, tol, eTiny, sW,
      List.insertionSort, List.orderedInsert, entryOrder, capOrder, lex3,
      List.range, List.range.loop, min_def]
  refine ⟨⟨by norm_num [eTiny, tol], by norm_num [eTiny]⟩, ?_⟩
  rw [h]
  simp

/-- **C8 amended.** A forecast entry whose required labor hours are zero or
negative always makes `schedule_tasks_greedy` fail with the index error at
finalization (it takes the scheduled branch with an empty allocation list
and indexes its last element), so no allocation result set is returned. -/
theorem scheduler_zero_hours_index_error (forecast : List ForecastEntry)
    (capacity : List CapSlot) (e : ForecastEntry) (he : e ∈ forecast)
    (hle : e.labor_hours ≤ 0) :
    schedule_tasks_greedy forecast capacity = none := by
  unfold schedule_tasks_greedy
  suffices h : (sortedForecast forecast).foldl scheduleFoldStep
      (some ([], initialCap capacity)) = none by rw [h]
  have hmem : e ∈ sortedForecast forecast := by
    unfold sortedForecast
    rwa [List.mem_insertionSort]
  obtain ⟨l1, l2, hsplit⟩ := List.append_of_mem hmem
  rw [hsplit, List.foldl_append]
  cases hf1 : l1.foldl scheduleFoldStep (some ([], initialCap capacity)) with
  | none => exact foldl_scheduleFoldStep_none _
  | some st =>
    rw [List.foldl_cons]
    have hstep : scheduleFoldStep (some st) e = none :=
      scheduleStep_nonpos hle
    rw [hstep]
    exact foldl_scheduleFoldStep_none _

/-- Witness for C8 amended: the zero-hours entry `eZero` aborts the run. -/
theorem scheduler_zero_hours_index_error_witness :
    (eZero ∈ [eZero] ∧ eZero.labor_hours ≤ 0) ∧
      schedule_tasks_greedy [eZero] [sW] = none :=
  ⟨⟨List.mem_singleton.mpr rfl, by norm_num [eZero]⟩,
    scheduler_zero_hours_index_error [eZero] [sW] eZero
      (List.mem_singleton.mpr rfl) (by norm_num [eZero])⟩

/-! ## Claim C9: scheduled dates never pass the due date; no LATE_SCHEDULE -/

/-- **C9.** Every scheduled result of a successful scheduler run has its
scheduled date on or before its due date, and the risk register built from
the run's results never contains a LATE_SCHEDULE entry. -/
theorem scheduler_never_late (forecast : List ForecastEntry)
    (capacity : List CapSlot) (res : List AllocResult) (capOut : List CapSlot)
    (h : schedule_tasks_greedy forecast capacity = some (res, capOut)) :
    (∀ r ∈ res, r.scheduled = true →
        ∃ d, r.scheduled_date = some d ∧ d ≤ r.entry.due_date)
    ∧ ∀ today, ∀ e ∈ build_risk_register res today,
        e.risk_type ≠ "LATE_SCHEDULE" := by
  obtain ⟨st, hfold, h1, _⟩ := schedule_tasks_greedy_some h
  subst h1
  have hres : ∀ r ∈ st.1, r.scheduled = true →
      ∃ d, r.scheduled_date = some d ∧ d ≤ r.entry.due_date := by
    refine foldl_scheduleFoldStep_invariant
      (fun st => ∀ r ∈ st.1, r.scheduled = true →
        ∃ d, r.scheduled_date = some d ∧ d ≤ r.entry.due_date)
      (fold_results_pres _ ?_) _ _ _ hfold (by simp)
    intro stp task r hf hsch
    obtain ⟨he, _, _, _, hlast⟩ := finalizeEntry_some hf
    obtain ⟨p, hp, hdate⟩ := hlast hsch
    have hpmem := List.mem_of_getLast?_eq_some hp
    rcases allocLoop_allocations_mem task.base task.labor_hours _ _ _ _ _
        hpmem with hmem | hmem
    · exact absurd hmem (by simp)
    · exact ⟨p.1, hdate, he ▸ mem_windowDates_le hmem⟩
  refine ⟨hres, ?_⟩
  intro today e he
  unfold build_risk_register at he
  rw [List.mem_insertionSort, List.mem_flatten] at he
  obtain ⟨l, hl, hel⟩ := he
  rw [List.mem_map] at hl
  obtain ⟨r, hr, rfl⟩ := hl
  unfold riskRowsFor at hel
  rcases List.mem_append.mp hel with h1 | h1
  · rcases List.mem_append.mp h1 with h2 | h2
    · rcases List.mem_append.mp h2 with h3 | h3
      · obtain ⟨_, rfl⟩ := mem_ite_singleton h3
        simp [mkRisk]
      · obtain ⟨_, rfl⟩ := mem_ite_singleton h3
        simp [mkRisk]
    · obtain ⟨⟨hsch, d1, hd1, hgt⟩, rfl⟩ := mem_ite_singleton h2
      obtain ⟨d0, hd0, hled⟩ := hres r hr hsch
      rw [hd0] at hd1
      exfalso
      have hEq : d0 = d1 := Option.some.inj hd1
      subst hEq
      linarith
  · obtain ⟨_, rfl⟩ := mem_ite_singleton h1
    simp [mkRisk]

/-- Witness for C9 at a concrete forecast and capacity table. -/
theorem scheduler_never_late_witness :
    schedule_tasks_greedy [eW] [sW] = some ([rW], [sWUsed]) ∧
      (∀ r ∈ [rW], r.scheduled = true →
        ∃ d, r.scheduled_date = some d ∧ d ≤ r.entry.due_date) ∧
      ∀ today, ∀ e ∈ build_risk_register [rW] today,
        e.risk_type ≠ "LATE_SCHEDULE" := by
  have h : schedule_tasks_greedy [eW] [sW] = some ([rW], [sWUsed]) := by
    norm_num [schedule_tasks_greedy, sortedForecast, initialCap,
      scheduleFoldStep, scheduleStep, allocLoop, finalizeEntry, capIndex,
      windowDates, addRemaining, dropRemaining, tol, eW, sW, rW, sWUsed,
      List.insertionSort, List.orderedInsert, entryOrder, capOrder, lex3,
      List.range, List.range.loop, min_def]
  exact ⟨h, scheduler_never_late [eW] [sW] [rW] [sWUsed] h⟩

end AircraftSim
